import Mathlib

/-!
# Verification of the RFAOII demo orchestration layer

Shallow embedding of `flask/helper/routes.py`: the valuation parser
(`_coerce_utils`), the diagnostic capture harness (`_run_with_log_capture`),
the round-valuation summarizer (`_round_values`) and the request orchestrator
(`home`), together with theorems settling the specification claims.

Modelling conventions:
* Python values decoded from user payloads are the inductive `PyValue`;
  Python floats are modelled as exact rationals (IEEE rounding is not
  modelled; no claim here depends on it).
* Python dicts are association lists in insertion order; inserting an
  existing key overwrites its value in place (`dinsert`), matching CPython.
* A Python exception is `PyErr.pyExn kind`; the Flask `abort(code, msg)`
  call is `PyErr.abort code msg`.  An `abort 400` is the code's client-input
  rejection mechanism; an uncaught `pyExn` surfaces as an internal error.
* `json.loads` is modelled by `jsonLoads`, a parser for the RFC 8259 grammar
  (the non-standard `NaN`/`Infinity` extensions and the rejection of raw
  control characters inside strings are not modelled).
* `eval(raw, {})` is modelled by `pyEvalLiteral`, a parser for Python
  literal displays (numbers, strings, `True`/`False`/`None`, lists, tuples,
  dicts, trailing commas).  An input outside this literal dialect is
  modelled as a failure; the real `eval` would execute it as a general
  expression — that gap is exactly the subject of claim C1.
-/

namespace RFA

/-- A decoded Python value (the results of `json.loads` / literal `eval`). -/
inductive PyValue where
  | int (n : ℤ)
  | float (q : ℚ)
  | str (s : String)
  | bool (b : Bool)
  | none
  | list (xs : List PyValue)
  | dict (entries : List (PyValue × PyValue))

/-- How a request computation fails: a Flask `abort(code, msg)` (the code's
client-input rejection) or an uncaught Python exception of a given kind. -/
inductive PyErr where
  | abort (code : ℕ) (msg : String)
  | pyExn (kind : String)
deriving DecidableEq

/-- `true` exactly for the code's client-input rejection (`abort 400 _`). -/
def PyErr.isClientInput : PyErr → Bool
  | .abort _ _ => true
  | .pyExn _ => false

instance {ε α : Type} [DecidableEq ε] [DecidableEq α] : DecidableEq (Except ε α) :=
  fun a b =>
    match a, b with
    | .ok x, .ok y => decidable_of_iff (x = y) (by simp)
    | .error e, .error f => decidable_of_iff (e = f) (by simp)
    | .ok _, .error _ => isFalse (by simp)
    | .error _, .ok _ => isFalse (by simp)

/-- Kernel-reducible powers of ten (Mathlib's `Monoid.npow`/`zpow` instances
do not evaluate under `decide`). -/
def qpow10 : ℕ → ℚ
  | 0 => 1
  | n + 1 => qpow10 n * 10

/-- `10 ^ e` for a signed exponent. -/
def qpow10Z (e : ℤ) : ℚ :=
  if 0 ≤ e then qpow10 e.toNat else 1 / qpow10 (-e).toNat

/-! ### Python dict semantics (association lists, insertion order) -/

/-- CPython dict assignment `d[k] = v`: overwrite in place if the key is
present, else append. -/
def dinsert {α β : Type} [DecidableEq α] : List (α × β) → α → β → List (α × β)
  | [], k, v => [(k, v)]
  | (k', v') :: rest, k, v =>
      if k' = k then (k, v) :: rest else (k', v') :: dinsert rest k v

/-- CPython dict lookup `d[k]` (first — i.e. unique — matching key). -/
def dlookup {α β : Type} [DecidableEq α] : List (α × β) → α → Option β
  | [], _ => Option.none
  | (k', v') :: rest, k => if k' = k then some v' else dlookup rest k

/-! ### Lexing helpers shared by both decoders -/

def isWsChar (c : Char) : Bool :=
  c = ' ' || c = '\n' || c = '\t' || c = '\r'

def isDigitChar (c : Char) : Bool :=
  '0' ≤ c && c ≤ '9'

def skipWs : List Char → List Char
  | c :: cs => if isWsChar c then skipWs cs else c :: cs
  | [] => []

/-- Longest digit run at the head, and the rest. -/
def takeDigits : List Char → List Char × List Char
  | c :: cs =>
      if isDigitChar c then
        let (ds, r) := takeDigits cs
        (c :: ds, r)
      else ([], c :: cs)
  | [] => ([], [])

def digitsVal (ds : List Char) : ℕ :=
  ds.foldl (fun acc c => acc * 10 + (c.toNat - '0'.toNat)) 0

def hexDigitVal (c : Char) : Option ℕ :=
  let n := c.toNat
  if 48 ≤ n ∧ n ≤ 57 then some (n - 48)
  else if 97 ≤ n ∧ n ≤ 102 then some (n - 87)
  else if 65 ≤ n ∧ n ≤ 70 then some (n - 55)
  else Option.none

/-- Strip a leading sign: `(isNegative, rest)`.  A leading `+` is consumed
only where the grammar allows one (`plus = true`). -/
def stripSign (plus : Bool) (cs : List Char) : Bool × List Char :=
  match cs with
  | '-' :: r => (true, r)
  | '+' :: r => if plus then (false, r) else (false, cs)
  | _ => (false, cs)

def condNegInt (neg : Bool) (n : ℤ) : ℤ := if neg then -n else n

def condNegRat (neg : Bool) (q : ℚ) : ℚ := if neg then -q else q

/-! ### The strict decoder: `json.loads` -/

/-- JSON string body after the opening quote, with escapes. -/
def jsonStringAux : List Char → List Char → Option (String × List Char)
  | acc, '"' :: rest => some (String.mk acc.reverse, rest)
  | acc, '\\' :: e :: rest =>
      match e with
      | '"' => jsonStringAux ('"' :: acc) rest
      | '\\' => jsonStringAux ('\\' :: acc) rest
      | '/' => jsonStringAux ('/' :: acc) rest
      | 'b' => jsonStringAux ('\x08' :: acc) rest
      | 'f' => jsonStringAux ('\x0c' :: acc) rest
      | 'n' => jsonStringAux ('\n' :: acc) rest
      | 'r' => jsonStringAux ('\x0d' :: acc) rest
      | 't' => jsonStringAux ('\t' :: acc) rest
      | 'u' =>
          match rest with
          | a :: b :: c :: d :: r2 =>
              match hexDigitVal a, hexDigitVal b, hexDigitVal c, hexDigitVal d with
              | some ha, some hb, some hc, some hd =>
                  jsonStringAux
                    (Char.ofNat (((ha * 16 + hb) * 16 + hc) * 16 + hd) :: acc) r2
              | _, _, _, _ => Option.none
          | _ => Option.none
      | _ => Option.none
  | acc, c :: rest =>
      if c = '"' ∨ c = '\\' then Option.none else jsonStringAux (c :: acc) rest
  | _, [] => Option.none

/-- Exponent digits (with optional sign) after the `e`/`E` marker. -/
def jsonExpTail (r : List Char) : Option (Option ℤ × List Char) :=
  let (neg, r1) := stripSign true r
  match takeDigits r1 with
  | ([], _) => Option.none
  | (es, r2) => some (some (condNegInt neg (digitsVal es)), r2)

/-- Optional exponent part: `none` = malformed, `some (none, r)` = absent. -/
def jsonOptExp : List Char → Option (Option ℤ × List Char)
  | 'e' :: r => jsonExpTail r
  | 'E' :: r => jsonExpTail r
  | r => some (Option.none, r)

/-- JSON number: integer when it has neither fraction nor exponent, float
otherwise (leading zeros rejected as in RFC 8259). -/
def jsonNumber (cs : List Char) : Option (PyValue × List Char) :=
  let (neg, cs1) := stripSign false cs
  match takeDigits cs1 with
  | ([], _) => Option.none
  | (ds, r2) =>
      if ds.length > 1 ∧ ds.headD '0' = '0' then Option.none
      else
        let ip : ℤ := digitsVal ds
        match r2 with
        | '.' :: rf =>
            match takeDigits rf with
            | ([], _) => Option.none
            | (fs, r3) =>
                let q : ℚ := (ip : ℚ) + (digitsVal fs : ℚ) / qpow10 fs.length
                match jsonOptExp r3 with
                | some (some e, r4) =>
                    some (.float (condNegRat neg (q * qpow10Z e)), r4)
                | some (Option.none, r4) => some (.float (condNegRat neg q), r4)
                | Option.none => Option.none
        | _ =>
            match jsonOptExp r2 with
            | some (some e, r4) =>
                some (.float (condNegRat neg ((ip : ℚ) * qpow10Z e)), r4)
            | some (Option.none, r4) => some (.int (condNegInt neg ip), r4)
            | Option.none => Option.none

mutual

/-- One JSON value starting at `cs` (leading whitespace allowed). -/
def jsonVal : ℕ → List Char → Option (PyValue × List Char)
  | 0, _ => Option.none
  | fuel + 1, cs =>
      match skipWs cs with
      | '{' :: rest =>
          match skipWs rest with
          | '}' :: r2 => some (.dict [], r2)
          | r2 => jsonObjRest fuel r2 []
      | '[' :: rest =>
          match skipWs rest with
          | ']' :: r2 => some (.list [], r2)
          | r2 => jsonArrRest fuel r2 []
      | '"' :: rest =>
          match jsonStringAux [] rest with
          | some (s, r2) => some (.str s, r2)
          | Option.none => Option.none
      | 't' :: 'r' :: 'u' :: 'e' :: rest => some (.bool true, rest)
      | 'f' :: 'a' :: 'l' :: 's' :: 'e' :: rest => some (.bool false, rest)
      | 'n' :: 'u' :: 'l' :: 'l' :: rest => some (.none, rest)
      | r => jsonNumber r

/-- Members of a JSON object after `{` (at least one member pending).
Duplicate keys are kept here in order; CPython collapses them at decode
time (last wins), which this pipeline reproduces at the coercion stage
(`dinsert` there is last-wins), so the two are observationally equal for
every function of this module. -/
def jsonObjRest : ℕ → List Char → List (PyValue × PyValue) →
    Option (PyValue × List Char)
  | 0, _, _ => Option.none
  | fuel + 1, cs, acc =>
      match cs with
      | '"' :: rest =>
          match jsonStringAux [] rest with
          | some (k, r2) =>
              match skipWs r2 with
              | ':' :: r3 =>
                  match jsonVal fuel r3 with
                  | some (v, r4) =>
                      match skipWs r4 with
                      | ',' :: r5 => jsonObjRest fuel (skipWs r5) (acc ++ [(.str k, v)])
                      | '}' :: r5 => some (.dict (acc ++ [(.str k, v)]), r5)
                      | _ => Option.none
                  | Option.none => Option.none
              | _ => Option.none
          | Option.none => Option.none
      | _ => Option.none

/-- Elements of a JSON array after `[` (at least one element pending). -/
def jsonArrRest : ℕ → List Char → List PyValue → Option (PyValue × List Char)
  | 0, _, _ => Option.none
  | fuel + 1, cs, acc =>
      match jsonVal fuel cs with
      | some (v, r) =>
          match skipWs r with
          | ',' :: r2 => jsonArrRest fuel r2 (acc ++ [v])
          | ']' :: r2 => some (.list (acc ++ [v]), r2)
          | _ => Option.none
      | Option.none => Option.none

end

/-- `json.loads(raw)`: one value, whole input consumed. `Option.none`
models a raised `json.JSONDecodeError`. -/
def jsonLoads (raw : String) : Option PyValue :=
  match jsonVal (raw.length + 1) raw.data with
  | some (v, rest) => if skipWs rest = [] then some v else Option.none
  | Option.none => Option.none

/-! ### The fallback decoder: `eval(raw, {})` on the literal dialect -/

/-- Python string body after the opening quote `qc`, with escapes. -/
def pyStringAux (qc : Char) : List Char → List Char → Option (String × List Char)
  | acc, c :: rest =>
      if c = qc then some (String.mk acc.reverse, rest)
      else if c = '\\' then
        match rest with
        | '\\' :: r2 => pyStringAux qc ('\\' :: acc) r2
        | '\'' :: r2 => pyStringAux qc ('\'' :: acc) r2
        | '"' :: r2 => pyStringAux qc ('"' :: acc) r2
        | 'n' :: r2 => pyStringAux qc ('\n' :: acc) r2
        | 't' :: r2 => pyStringAux qc ('\t' :: acc) r2
        | 'r' :: r2 => pyStringAux qc ('\x0d' :: acc) r2
        | 'b' :: r2 => pyStringAux qc ('\x08' :: acc) r2
        | 'f' :: r2 => pyStringAux qc ('\x0c' :: acc) r2
        | 'x' :: a :: b :: r2 =>
            match hexDigitVal a, hexDigitVal b with
            | some ha, some hb => pyStringAux qc (Char.ofNat (ha * 16 + hb) :: acc) r2
            | _, _ => Option.none
        | 'u' :: a :: b :: c' :: d :: r2 =>
            match hexDigitVal a, hexDigitVal b, hexDigitVal c', hexDigitVal d with
            | some ha, some hb, some hc, some hd =>
                pyStringAux qc
                  (Char.ofNat (((ha * 16 + hb) * 16 + hc) * 16 + hd) :: acc) r2
            | _, _, _, _ => Option.none
        | _ => Option.none
      else pyStringAux qc (c :: acc) rest
  | _, [] => Option.none

/-- An unsigned Python number literal.  `strictInt = true` applies the
literal-grammar ban on leading zeros in integers (so `01` is a syntax
error, as in `eval`); `float()`-style string conversion passes `false`. -/
def pyNumber (strictInt : Bool) (cs : List Char) : Option (PyValue × List Char) :=
  match cs with
  | '.' :: rf =>
      match takeDigits rf with
      | ([], _) => Option.none
      | (fs, r3) =>
          let q : ℚ := (digitsVal fs : ℚ) / qpow10 fs.length
          match jsonOptExp r3 with
          | some (some e, r4) => some (.float (q * qpow10Z e), r4)
          | some (Option.none, r4) => some (.float q, r4)
          | Option.none => Option.none
  | _ =>
      match takeDigits cs with
      | ([], _) => Option.none
      | (ds, r2) =>
          let ip : ℤ := digitsVal ds
          match r2 with
          | '.' :: rf =>
              let (fs, r3) := takeDigits rf
              let q : ℚ := (ip : ℚ) + (digitsVal fs : ℚ) / qpow10 fs.length
              match jsonOptExp r3 with
              | some (some e, r4) => some (.float (q * qpow10Z e), r4)
              | some (Option.none, r4) => some (.float q, r4)
              | Option.none => Option.none
          | _ =>
              match jsonOptExp r2 with
              | some (some e, r4) => some (.float ((ip : ℚ) * qpow10Z e), r4)
              | some (Option.none, r4) =>
                  if strictInt ∧ ds.length > 1 ∧ ds.headD '0' = '0' ∧
                      ¬ ds.all (fun c => c = '0') then Option.none
                  else some (.int ip, r4)
              | Option.none => Option.none

mutual

/-- One Python literal (leading whitespace allowed): number (optionally
negated), string, `True`/`False`/`None`, list or dict, nested arbitrarily,
with trailing commas allowed in the bracketed forms. -/
def pyVal : ℕ → List Char → Option (PyValue × List Char)
  | 0, _ => Option.none
  | fuel + 1, cs =>
      match skipWs cs with
      | '{' :: rest =>
          match skipWs rest with
          | '}' :: r2 => some (.dict [], r2)
          | r2 => pyDictRest fuel r2 []
      | '[' :: rest =>
          match skipWs rest with
          | ']' :: r2 => some (.list [], r2)
          | r2 => pyListRest fuel r2 []
      | '\'' :: rest =>
          match pyStringAux '\'' [] rest with
          | some (s, r2) => some (.str s, r2)
          | Option.none => Option.none
      | '"' :: rest =>
          match pyStringAux '"' [] rest with
          | some (s, r2) => some (.str s, r2)
          | Option.none => Option.none
      | 'T' :: 'r' :: 'u' :: 'e' :: rest => some (.bool true, rest)
      | 'F' :: 'a' :: 'l' :: 's' :: 'e' :: rest => some (.bool false, rest)
      | 'N' :: 'o' :: 'n' :: 'e' :: rest => some (.none, rest)
      | '-' :: rest =>
          match pyNumber true (skipWs rest) with
          | some (.int n, r) => some (.int (-n), r)
          | some (.float q, r) => some (.float (-q), r)
          | _ => Option.none
      | r => pyNumber true r

/-- Members of a Python dict display after `{` (at least one pending). -/
def pyDictRest : ℕ → List Char → List (PyValue × PyValue) →
    Option (PyValue × List Char)
  | 0, _, _ => Option.none
  | fuel + 1, cs, acc =>
      match pyVal fuel cs with
      | some (k, r1) =>
          match skipWs r1 with
          | ':' :: r2 =>
              match pyVal fuel r2 with
              | some (v, r3) =>
                  match skipWs r3 with
                  | ',' :: r4 =>
                      match skipWs r4 with
                      | '}' :: r5 => some (.dict (acc ++ [(k, v)]), r5)
                      | r5 => pyDictRest fuel r5 (acc ++ [(k, v)])
                  | '}' :: r4 => some (.dict (acc ++ [(k, v)]), r4)
                  | _ => Option.none
              | Option.none => Option.none
          | _ => Option.none
      | Option.none => Option.none

/-- Elements of a Python list display after `[` (at least one pending). -/
def pyListRest : ℕ → List Char → List PyValue → Option (PyValue × List Char)
  | 0, _, _ => Option.none
  | fuel + 1, cs, acc =>
      match pyVal fuel cs with
      | some (v, r) =>
          match skipWs r with
          | ',' :: r2 =>
              match skipWs r2 with
              | ']' :: r3 => some (.list (acc ++ [v]), r3)
              | r3 => pyListRest fuel r3 (acc ++ [v])
          | ']' :: r2 => some (.list (acc ++ [v]), r2)
          | _ => Option.none
      | Option.none => Option.none

end

/-- `eval(raw, {})` restricted to the Python literal dialect above.
`Option.none` models the uncaught exception `eval` raises on inputs that
are not a single well-formed expression (e.g. `SyntaxError`).  A
well-formed input *outside* the literal dialect (a name, call, attribute
access, …) is also mapped to `Option.none` here, while the real `eval`
would *execute* it with the ambient builtins available — that unsandboxed
execution surface is the subject of claim C1 and is deliberately not given
a semantics in this model. -/
def pyEvalLiteral (raw : String) : Option PyValue :=
  match pyVal (raw.length + 1) raw.data with
  | some (v, rest) => if skipWs rest = [] then some v else Option.none
  | Option.none => Option.none

/-! ### Coercions: `int(...)`, `float(...)`, `.items()` -/

/-- Python `int()` truncates a float toward zero. -/
def pyIntOfRat (q : ℚ) : ℤ :=
  if 0 ≤ q then ⌊q⌋ else ⌈q⌉

def stripWsEnd (cs : List Char) : List Char :=
  (skipWs cs.reverse).reverse

/-- Python `int(s)` on a string: optional sign, decimal digits, surrounding
whitespace allowed; anything else raises `ValueError` (`Option.none`). -/
def pyIntOfString (s : String) : Option ℤ :=
  let cs := stripWsEnd (skipWs s.data)
  let (neg, cs1) := stripSign true cs
  match takeDigits cs1 with
  | ([], _) => Option.none
  | (ds, r) => if r = [] then some (condNegInt neg (digitsVal ds)) else Option.none

/-- Python `float(s)` on a string: optional sign, then a decimal number
(integer, point or exponent form), surrounding whitespace allowed (the
`inf`/`nan` spellings are not modelled). -/
def pyFloatOfString (s : String) : Option ℚ :=
  let cs := stripWsEnd (skipWs s.data)
  let (neg, cs1) := stripSign true cs
  match pyNumber false cs1 with
  | some (.int n, r) => if r = [] then some (condNegRat neg (n : ℚ)) else Option.none
  | some (.float q, r) => if r = [] then some (condNegRat neg q) else Option.none
  | _ => Option.none

/-- Python `int(v)` on a decoded value. -/
def pyInt : PyValue → Except PyErr ℤ
  | .int n => .ok n
  | .float q => .ok (pyIntOfRat q)
  | .bool b => .ok (if b then 1 else 0)
  | .str s =>
      match pyIntOfString s with
      | some n => .ok n
      | Option.none => .error (.pyExn "ValueError")
  | _ => .error (.pyExn "TypeError")

/-- Python `float(v)` on a decoded value. -/
def pyFloat : PyValue → Except PyErr ℚ
  | .int n => .ok (n : ℚ)
  | .float q => .ok q
  | .bool b => .ok (if b then 1 else 0)
  | .str s =>
      match pyFloatOfString s with
      | some q => .ok q
      | Option.none => .error (.pyExn "ValueError")
  | _ => .error (.pyExn "TypeError")

/-- Python `v.items()`: the entries of a dict; on any non-dict the
attribute lookup raises `AttributeError`. -/
def pyItems : PyValue → Except PyErr (List (PyValue × PyValue))
  | .dict es => .ok es
  | _ => .error (.pyExn "AttributeError")

/-! ### `_coerce_utils` -/

/-- The validated valuation table: agent id ↦ (item id ↦ valuation),
both levels as insertion-ordered dicts. -/
abbrev Utils := List (ℤ × List (ℤ × ℚ))

/-- The dict comprehension `{int(it): float(val) for it, val in items.items()}`
over the already-extracted entries, accumulating left to right. -/
def coerceInnerLoop (acc : List (ℤ × ℚ)) :
    List (PyValue × PyValue) → Except PyErr (List (ℤ × ℚ))
  | [] => .ok acc
  | (it, v) :: rest =>
      match pyInt it with
      | .error e => .error e
      | .ok i =>
          match pyFloat v with
          | .error e => .error e
          | .ok q => coerceInnerLoop (dinsert acc i q) rest

/-- One agent's inner mapping: `.items()` then the dict comprehension. -/
def coerceInner (items : PyValue) : Except PyErr (List (ℤ × ℚ)) :=
  match pyItems items with
  | .error e => .error e
  | .ok ps => coerceInnerLoop [] ps

/-- The loop `for a_lbl, items in data.items(): out[int(a_lbl)] = {...}`
over the outer entries, accumulating into `out`. -/
def coerceLoop (acc : Utils) :
    List (PyValue × PyValue) → Except PyErr Utils
  | [] => .ok acc
  | (albl, items) :: rest =>
      match pyInt albl with
      | .error e => .error e
      | .ok a =>
          match coerceInner items with
          | .error e => .error e
          | .ok inner => coerceLoop (dinsert acc a inner) rest

/-- The message of the agent-set rejection in `_coerce_utils`. -/
def invalidAgentSetMsg : String :=
  "The current demo supports *exactly* two agents, labelled 0 and 1."

/-- `set(out) == {0, 1}`. -/
def agentSetOk (out : Utils) : Bool :=
  let ks := out.map Prod.fst
  ks.contains 0 && ks.contains 1 && ks.all (fun a => a = 0 || a = 1)

/-- `_coerce_utils` after decoding: the coercion loop over `data.items()`
followed by the agent-set validation (`abort(400, ...)` on failure). -/
def coerceData (data : PyValue) : Except PyErr Utils :=
  match pyItems data with
  | .error e => .error e
  | .ok es =>
      match coerceLoop [] es with
      | .error e => .error e
      | .ok out =>
          if agentSetOk out then .ok out
          else .error (.abort 400 invalidAgentSetMsg)

/-- `_coerce_utils(raw)`: strict `json.loads` first; on `JSONDecodeError`
(the only exception caught) fall back to `eval(raw, {})`; then coerce all
keys to `int` and all values to `float` and validate the agent set.  A
failing fallback is the uncaught exception `eval` raises (modelled as
`SyntaxError`, the case for inputs that parse under neither decoder). -/
def coerceUtils (raw : String) : Except PyErr Utils :=
  match jsonLoads raw with
  | some data => coerceData data
  | Option.none =>
      match pyEvalLiteral raw with
      | some data => coerceData data
      | Option.none => .error (.pyExn "SyntaxError")

/-! ### `_run_with_log_capture` -/

/-- The root logger's process-wide mutable configuration: severity
threshold and the attached sinks (handlers), by identity. -/
structure LogState where
  level : ℤ
  handlers : List ℕ
deriving DecidableEq

/-- `logging.DEBUG`. -/
def DEBUG_LEVEL : ℤ := 10

/-- A handler object distinct from every attached one (a fresh
`StreamHandler`). -/
def freshHandler (s : LogState) : ℕ :=
  (s.handlers.foldr max 0) + 1

/-- `root.removeHandler(h)`: removes (the first occurrence of) `h`. -/
def removeHandler : List ℕ → ℕ → List ℕ
  | [], _ => []
  | h' :: rest, h => if h' = h then rest else h' :: removeHandler rest h

/-- `_run_with_log_capture`: snapshot the root level, attach a fresh
temporary handler, raise the level to DEBUG, run the callable, and in a
`finally` block remove the temporary handler and restore the level; the
callable's outcome (result or exception) passes through unchanged.  The
callable is modelled as a completed outcome `f` that does not itself
mutate the root logger configuration; the captured text is not modelled
(no claim depends on its content). -/
def runWithLogCapture {α : Type} (f : Except PyErr α) (s : LogState) :
    Except PyErr α × LogState :=
  let prevLevel := s.level
  let tmpHandler := freshHandler s
  let s1 : LogState := ⟨DEBUG_LEVEL, s.handlers ++ [tmpHandler]⟩
  let s2 : LogState := ⟨prevLevel, removeHandler s1.handlers tmpHandler⟩
  (f, s2)

/-! ### `_round_values` -/

/-- One allocation round: the bundle of agent 0 and the bundle of agent 1
(`rd[0]`, `rd[1]`). -/
abbrev Round := List ℤ × List ℤ

/-- `vals[idx][agent]["own" | "other"]` for one round. -/
structure RoundVal where
  a0own : ℚ
  a0other : ℚ
  a1own : ℚ
  a1other : ℚ
deriving DecidableEq

/-- `utils[a]`: outer dict lookup (raises `KeyError` when absent). -/
def utilsGet (utils : Utils) (a : ℤ) : Except PyErr (List (ℤ × ℚ)) :=
  match dlookup utils a with
  | some d => .ok d
  | Option.none => .error (.pyExn "KeyError")

/-- `utils[a][o]`: inner dict lookup (raises `KeyError` when absent). -/
def dictGet (d : List (ℤ × ℚ)) (o : ℤ) : Except PyErr ℚ :=
  match dlookup d o with
  | some q => .ok q
  | Option.none => .error (.pyExn "KeyError")

/-- `sum(utils[a][o] for o in bundle)`: each term looks `utils[a]` up
again (a generator), so an empty bundle never touches `utils`. -/
def sumUtils (utils : Utils) (a : ℤ) : List ℤ → Except PyErr ℚ
  | [] => .ok 0
  | o :: rest =>
      match utilsGet utils a with
      | .error e => .error e
      | .ok d =>
          match dictGet d o with
          | .error e => .error e
          | .ok q =>
              match sumUtils utils a rest with
              | .error e => .error e
              | .ok s => .ok (q + s)

/-- `_round_values(rounds, utils)`: per round, in order, the four own/other
totals. -/
def roundValues (rounds : List Round) (utils : Utils) :
    Except PyErr (List RoundVal) :=
  match rounds with
  | [] => .ok []
  | rd :: rest =>
      match sumUtils utils 0 rd.1 with
      | .error e => .error e
      | .ok a0own =>
          match sumUtils utils 0 rd.2 with
          | .error e => .error e
          | .ok a0other =>
              match sumUtils utils 1 rd.2 with
              | .error e => .error e
              | .ok a1own =>
                  match sumUtils utils 1 rd.1 with
                  | .error e => .error e
                  | .ok a1other =>
                      match roundValues rest utils with
                      | .error e => .error e
                      | .ok vs => .ok (⟨a0own, a0other, a1own, a1other⟩ :: vs)

/-! ### The `home` route (POST branch) -/

/-- The external allocation/fairness collaborators (`rfaoi.algorithm1`,
`rfaoi.algorithm2`, `rfaoi.EF1_holds`, `rfaoi.weak_EF1_holds`), consumed
through their interface; an algorithm may raise. -/
structure Collab where
  algorithm1 : Utils → Except PyErr (List Round)
  algorithm2 : ℤ → Utils → Except PyErr (List Round)
  ef1Holds : Round → ℤ → Utils → Bool
  weakEf1Holds : Round → ℤ → Utils → Bool

/-- The payload handed to `render_template` (the captured log text is not
modelled; no claim depends on its content). -/
structure Rendered where
  template : String
  utils : Utils
  rounds : List Round
  checks : List (List Bool)
  vals : List RoundVal
  k : ℤ
deriving DecidableEq

/-- The root logger state installed by `logging.basicConfig(level=INFO)`
at import time: level 20, one handler. -/
def initLogState : LogState := ⟨20, [0]⟩

/-- The POST branch of `home`: coerce the payload, dispatch on the
selector token (`"1"` = two-round, anything else = general-even), enforce
the variant's round-count check, run the chosen algorithm under the
capture harness, evaluate the fairness predicate per round per agent,
summarize round values, and assemble the view-model. -/
def home (C : Collab) (utilsRaw : String) (k : ℤ) (algoSel : String) :
    Except PyErr Rendered :=
  match coerceUtils utilsRaw with
  | .error e => .error e
  | .ok utils =>
      if algoSel = "1" then
        if k ≠ 2 then .error (.abort 400 "Algorithm 1 works only for k = 2.")
        else
          match (runWithLogCapture (C.algorithm1 utils) initLogState).1 with
          | .error e => .error e
          | .ok rounds =>
              let checks := rounds.map
                (fun rd => [C.ef1Holds rd 0 utils, C.ef1Holds rd 1 utils])
              match roundValues rounds utils with
              | .error e => .error e
              | .ok vals => .ok ⟨"algo1.html", utils, rounds, checks, vals, k⟩
      else
        if k % 2 ≠ 0 then .error (.abort 400 "Algorithm 2 requires an *even* k.")
        else
          match (runWithLogCapture (C.algorithm2 k utils) initLogState).1 with
          | .error e => .error e
          | .ok rounds =>
              let checks := rounds.map
                (fun rd => [C.weakEf1Holds rd 0 utils, C.weakEf1Holds rd 1 utils])
              match roundValues rounds utils with
              | .error e => .error e
              | .ok vals => .ok ⟨"algo2.html", utils, rounds, checks, vals, k⟩

/-! ### Specification-side vocabulary -/

/-- The decode stage of `_coerce_utils` in isolation: the strict decoder,
else the fallback decoder ("the payload decodes to `data`"). -/
def decodePayload (raw : String) : Option PyValue :=
  match jsonLoads raw with
  | some d => some d
  | Option.none => pyEvalLiteral raw

/-- "Agent `a` prices item `o`": `utils[a][o]` exists. -/
def pricedBy (utils : Utils) (a o : ℤ) : Bool :=
  ((dlookup utils a).bind (fun d => dlookup d o)).isSome

/-- "The sum of `utils[a][item]` over `bundle`" (items the agent does not
price contribute their absent lookup as 0; the theorems only use this
under the hypothesis that every item is priced). -/
def bundleVal (utils : Utils) (a : ℤ) (bundle : List ℤ) : ℚ :=
  (bundle.map (fun o => ((dlookup utils a).bind (fun d => dlookup d o)).getD 0)).sum

/-- `vals[idx][a]["own"]`. -/
def RoundVal.own (v : RoundVal) (a : ℤ) : ℚ :=
  if a = 0 then v.a0own else v.a1own

/-- `vals[idx][a]["other"]`. -/
def RoundVal.other (v : RoundVal) (a : ℤ) : ℚ :=
  if a = 0 then v.a0other else v.a1other

/-- What one round contributes to `_round_values` when it succeeds: the
four claimed own/other sums. -/
def roundSummary (utils : Utils) (rd : Round) : RoundVal :=
  ⟨bundleVal utils 0 rd.1, bundleVal utils 0 rd.2,
   bundleVal utils 1 rd.2, bundleVal utils 1 rd.1⟩

/-! ### Concrete request data used by witnesses and counterexamples -/

/-- The spec's scenario-A payload. -/
def demoRaw : String :=
  "\x7b\"0\": \x7b\"0\": 5, \"1\": 3\x7d, \"1\": \x7b\"0\": 2, \"1\": 6\x7d\x7d"

/-- The table `_coerce_utils` produces for `demoRaw`. -/
def demoUtils : Utils := [(0, [(0, 5), (1, 3)]), (1, [(0, 2), (1, 6)])]

/-- A table in which agent 0 does not price item 1. -/
def c6Utils : Utils := [(0, [(0, 5)]), (1, [(0, 2), (1, 6)])]

/-- A collaborator whose algorithms return fixed allocations. -/
def okCollab : Collab where
  algorithm1 := fun _ => .ok [([0], [1]), ([1], [0])]
  algorithm2 := fun _ _ => .ok []
  ef1Holds := fun _ _ _ => true
  weakEf1Holds := fun _ _ _ => true

/-- A collaborator whose algorithms raise a recognizable exception, so a
request outcome mentioning it proves the algorithm was invoked. -/
def probeCollab : Collab where
  algorithm1 := fun _ => .error (.pyExn "algorithm1 invoked")
  algorithm2 := fun _ _ => .error (.pyExn "algorithm2 invoked")
  ef1Holds := fun _ _ _ => true
  weakEf1Holds := fun _ _ _ => true

/-- The payload of claim C1's failing input: a Python expression that
imports a module and calls one of its functions. -/
def c1Payload : String := "__import__(\"os\").getcwd()"

/-- The spec's scenario-B payload: agent 1 missing. -/
def c2Raw : String := "\x7b\"0\": \x7b\"0\": 5\x7d\x7d"

/-- What `c2Raw` decodes to. -/
def c2Data : PyValue := .dict [(.str "0", .dict [(.str "0", .int 5)])]

/-- The outer entries of `c2Data`. -/
def c2Entries : List (PyValue × PyValue) := [(.str "0", .dict [(.str "0", .int 5)])]

/-- A payload with a non-numeric valuation. -/
def c3Raw : String :=
  "\x7b\"0\": \x7b\"0\": \"abc\"\x7d, \"1\": \x7b\"0\": 1\x7d\x7d"

/-- What `c3Raw` decodes to. -/
def c3Data : PyValue :=
  .dict [(.str "0", .dict [(.str "0", .str "abc")]),
         (.str "1", .dict [(.str "0", .int 1)])]

/-- The outer entries of `c3Data`. -/
def c3Entries : List (PyValue × PyValue) :=
  [(.str "0", .dict [(.str "0", .str "abc")]),
   (.str "1", .dict [(.str "0", .int 1)])]

/-- A payload whose two distinct agent labels `"0"` and `"00"` both coerce
to the canonical id 0. -/
def c10Raw : String := "\x7b\"0\": \x7b\"0\": 1\x7d, \"00\": \x7b\"0\": 2\x7d\x7d"

/-- What `c10Raw` decodes to. -/
def c10Data : PyValue :=
  .dict [(.str "0", .dict [(.str "0", .int 1)]),
         (.str "00", .dict [(.str "0", .int 2)])]

/-- The outer entries of `c10Data`. -/
def c10Entries : List (PyValue × PyValue) :=
  [(.str "0", .dict [(.str "0", .int 1)]),
   (.str "00", .dict [(.str "0", .int 2)])]

/-! ## Supporting lemmas -/

theorem mem_le_foldr_max {x : ℕ} : ∀ {l : List ℕ}, x ∈ l → x ≤ l.foldr max 0
  | a :: t, h => by
      rcases List.mem_cons.mp h with rfl | h'
      · exact le_max_left _ _
      · exact le_trans (mem_le_foldr_max h') (le_max_right _ _)

theorem freshHandler_not_mem (s : LogState) : freshHandler s ∉ s.handlers := by
  intro h
  have := mem_le_foldr_max h
  simp only [freshHandler] at this ⊢
  omega

theorem removeHandler_append_not_mem :
    ∀ (l : List ℕ) (h : ℕ), h ∉ l → removeHandler (l ++ [h]) h = l
  | [], h, _ => by simp [removeHandler]
  | a :: t, h, hn => by
      have ha : a ≠ h := fun e => hn (e ▸ List.mem_cons_self a t)
      have ht : h ∉ t := fun e => hn (List.mem_cons_of_mem a e)
      simp [removeHandler, ha, removeHandler_append_not_mem t h ht]

theorem coerceUtils_decode (raw : String) (data : PyValue)
    (h : decodePayload raw = some data) :
    coerceUtils raw = coerceData data := by
  unfold decodePayload at h
  unfold coerceUtils
  cases hj : jsonLoads raw with
  | some d =>
      simp only [hj] at h ⊢
      injection h with h
      rw [h]
  | none =>
      simp only [hj] at h ⊢
      rw [h]

theorem home_coerce_err (C : Collab) (raw : String) (k : ℤ) (sel : String)
    (e : PyErr) (h : coerceUtils raw = .error e) :
    home C raw k sel = .error e := by
  simp [home, h]

theorem home_two_round_badk (C : Collab) (raw : String) (k : ℤ) (u : Utils)
    (h : coerceUtils raw = .ok u) (hk : k ≠ 2) :
    home C raw k "1" = .error (.abort 400 "Algorithm 1 works only for k = 2.") := by
  simp [home, h, hk]

theorem home_general_oddk (C : Collab) (raw : String) (k : ℤ) (sel : String)
    (u : Utils) (h : coerceUtils raw = .ok u) (hsel : sel ≠ "1")
    (hk : k % 2 ≠ 0) :
    home C raw k sel = .error (.abort 400 "Algorithm 2 requires an *even* k.") := by
  simp [home, h, hsel, hk]

theorem home_general_algo_err (C : Collab) (raw : String) (k : ℤ) (sel : String)
    (u : Utils) (e : PyErr) (h : coerceUtils raw = .ok u) (hsel : sel ≠ "1")
    (hk : k % 2 = 0) (ha : C.algorithm2 k u = .error e) :
    home C raw k sel = .error e := by
  simp [home, h, hsel, hk, runWithLogCapture, ha]

theorem pyInt_err (v : PyValue) (e : PyErr) (h : pyInt v = .error e) :
    e.isClientInput = false := by
  cases v with
  | int n => exact absurd h (by simp [pyInt])
  | float q => exact absurd h (by simp [pyInt])
  | bool b => exact absurd h (by simp [pyInt])
  | str s =>
      simp only [pyInt] at h
      cases hs : pyIntOfString s with
      | some n => rw [hs] at h; exact absurd h (by simp)
      | none => rw [hs] at h; injection h with h; subst h; rfl
  | none => simp only [pyInt] at h; injection h with h; subst h; rfl
  | list xs => simp only [pyInt] at h; injection h with h; subst h; rfl
  | dict es => simp only [pyInt] at h; injection h with h; subst h; rfl

theorem pyFloat_err (v : PyValue) (e : PyErr) (h : pyFloat v = .error e) :
    e.isClientInput = false := by
  cases v with
  | int n => exact absurd h (by simp [pyFloat])
  | float q => exact absurd h (by simp [pyFloat])
  | bool b => exact absurd h (by simp [pyFloat])
  | str s =>
      simp only [pyFloat] at h
      cases hs : pyFloatOfString s with
      | some q => rw [hs] at h; exact absurd h (by simp)
      | none => rw [hs] at h; injection h with h; subst h; rfl
  | none => simp only [pyFloat] at h; injection h with h; subst h; rfl
  | list xs => simp only [pyFloat] at h; injection h with h; subst h; rfl
  | dict es => simp only [pyFloat] at h; injection h with h; subst h; rfl

theorem pyItems_err (v : PyValue) (e : PyErr) (h : pyItems v = .error e) :
    e.isClientInput = false := by
  cases v with
  | dict es => exact absurd h (by simp [pyItems])
  | int n => simp only [pyItems] at h; injection h with h; subst h; rfl
  | float q => simp only [pyItems] at h; injection h with h; subst h; rfl
  | bool b => simp only [pyItems] at h; injection h with h; subst h; rfl
  | str s => simp only [pyItems] at h; injection h with h; subst h; rfl
  | none => simp only [pyItems] at h; injection h with h; subst h; rfl
  | list xs => simp only [pyItems] at h; injection h with h; subst h; rfl

theorem coerceInnerLoop_err (ps : List (PyValue × PyValue)) :
    ∀ (acc : List (ℤ × ℚ)) (e : PyErr), coerceInnerLoop acc ps = .error e →
      e.isClientInput = false := by
  induction ps with
  | nil => intro acc e h; exact absurd h (by simp [coerceInnerLoop])
  | cons p rest ih =>
      intro acc e h
      obtain ⟨it, v⟩ := p
      simp only [coerceInnerLoop] at h
      cases hi : pyInt it with
      | error e1 => rw [hi] at h; injection h with h; subst h; exact pyInt_err it e1 hi
      | ok i =>
          rw [hi] at h
          cases hf : pyFloat v with
          | error e1 =>
              rw [hf] at h; injection h with h; subst h; exact pyFloat_err v e1 hf
          | ok q => rw [hf] at h; exact ih _ _ h

theorem coerceInner_err (items : PyValue) (e : PyErr)
    (h : coerceInner items = .error e) : e.isClientInput = false := by
  simp only [coerceInner] at h
  cases hi : pyItems items with
  | error e1 => rw [hi] at h; injection h with h; subst h; exact pyItems_err items e1 hi
  | ok ps => rw [hi] at h; exact coerceInnerLoop_err ps [] e h

theorem coerceLoop_err (es : List (PyValue × PyValue)) :
    ∀ (acc : Utils) (e : PyErr), coerceLoop acc es = .error e →
      e.isClientInput = false := by
  induction es with
  | nil => intro acc e h; exact absurd h (by simp [coerceLoop])
  | cons p rest ih =>
      intro acc e h
      obtain ⟨albl, items⟩ := p
      simp only [coerceLoop] at h
      cases ha : pyInt albl with
      | error e1 => rw [ha] at h; injection h with h; subst h; exact pyInt_err albl e1 ha
      | ok a =>
          rw [ha] at h
          cases hin : coerceInner items with
          | error e1 =>
              rw [hin] at h; injection h with h; subst h
              exact coerceInner_err items e1 hin
          | ok inner => rw [hin] at h; exact ih _ _ h

theorem dlookup_dinsert_self {α β : Type} [DecidableEq α]
    (l : List (α × β)) (k : α) (v : β) :
    dlookup (dinsert l k v) k = some v := by
  induction l with
  | nil => simp [dinsert, dlookup]
  | cons p rest ih =>
      obtain ⟨k', v'⟩ := p
      by_cases hk : k' = k
      · simp [dinsert, hk, dlookup]
      · simp [dinsert, hk, dlookup, ih]

theorem coerceLoop_append (es fs : List (PyValue × PyValue)) :
    ∀ acc : Utils, coerceLoop acc (es ++ fs) =
      match coerceLoop acc es with
      | .error e => .error e
      | .ok mid => coerceLoop mid fs := by
  induction es with
  | nil => intro acc; simp [coerceLoop]
  | cons p rest ih =>
      intro acc
      obtain ⟨albl, items⟩ := p
      simp only [List.cons_append, coerceLoop]
      cases hpi : pyInt albl with
      | error e => simp
      | ok a =>
          cases hci : coerceInner items with
          | error e => simp
          | ok inner => exact ih _

theorem coerceInnerLoop_append (ps qs : List (PyValue × PyValue)) :
    ∀ acc : List (ℤ × ℚ), coerceInnerLoop acc (ps ++ qs) =
      match coerceInnerLoop acc ps with
      | .error e => .error e
      | .ok mid => coerceInnerLoop mid qs := by
  induction ps with
  | nil => intro acc; simp [coerceInnerLoop]
  | cons p rest ih =>
      intro acc
      obtain ⟨it, v⟩ := p
      simp only [List.cons_append, coerceInnerLoop]
      cases hpi : pyInt it with
      | error e => simp
      | ok i =>
          cases hpf : pyFloat v with
          | error e => simp
          | ok q => exact ih _

theorem utilsGet_ok (utils : Utils) (a : ℤ) (d : List (ℤ × ℚ))
    (h : utilsGet utils a = .ok d) : dlookup utils a = some d := by
  unfold utilsGet at h
  cases hd : dlookup utils a with
  | none => rw [hd] at h; exact absurd h (by simp)
  | some d' => rw [hd] at h; injection h with h; rw [h]

theorem dictGet_ok (d : List (ℤ × ℚ)) (o : ℤ) (q : ℚ)
    (h : dictGet d o = .ok q) : dlookup d o = some q := by
  unfold dictGet at h
  cases hq : dlookup d o with
  | none => rw [hq] at h; exact absurd h (by simp)
  | some q' => rw [hq] at h; injection h with h; rw [h]

theorem utilsGet_err (utils : Utils) (a : ℤ) (e : PyErr)
    (h : utilsGet utils a = .error e) : e = .pyExn "KeyError" := by
  unfold utilsGet at h
  cases hd : dlookup utils a with
  | none => rw [hd] at h; injection h with h; rw [h]
  | some d => rw [hd] at h; exact absurd h (by simp)

theorem dictGet_err (d : List (ℤ × ℚ)) (o : ℤ) (e : PyErr)
    (h : dictGet d o = .error e) : e = .pyExn "KeyError" := by
  unfold dictGet at h
  cases hq : dlookup d o with
  | none => rw [hq] at h; injection h with h; rw [h]
  | some q => rw [hq] at h; exact absurd h (by simp)

theorem sumUtils_ok_of_priced (utils : Utils) (a : ℤ) :
    ∀ b : List ℤ, (∀ o ∈ b, pricedBy utils a o = true) →
      sumUtils utils a b = .ok (bundleVal utils a b) := by
  intro b
  induction b with
  | nil => intro _; simp [sumUtils, bundleVal]
  | cons o rest ih =>
      intro h
      have ho := h o (List.mem_cons_self o rest)
      have hrest := fun x hx => h x (List.mem_cons_of_mem o hx)
      unfold pricedBy at ho
      cases hd : dlookup utils a with
      | none => rw [hd] at ho; simp at ho
      | some d =>
          simp only [hd, Option.some_bind] at ho
          cases hq : dlookup d o with
          | none => rw [hq] at ho; simp at ho
          | some q =>
              simp only [sumUtils, utilsGet, hd, dictGet, hq, ih hrest]
              simp [bundleVal, hd, hq]

theorem sumUtils_ok_val (utils : Utils) (a : ℤ) :
    ∀ (b : List ℤ) (s : ℚ), sumUtils utils a b = .ok s →
      s = bundleVal utils a b ∧ ∀ o ∈ b, pricedBy utils a o = true := by
  intro b
  induction b with
  | nil =>
      intro s h
      simp only [sumUtils] at h
      injection h with h
      exact ⟨by rw [← h]; simp [bundleVal], by simp⟩
  | cons o rest ih =>
      intro s h
      simp only [sumUtils] at h
      cases hg : utilsGet utils a with
      | error e => simp only [hg] at h; exact absurd h (by simp)
      | ok d =>
          simp only [hg] at h
          cases hq : dictGet d o with
          | error e => simp only [hq] at h; exact absurd h (by simp)
          | ok q =>
              simp only [hq] at h
              cases hs : sumUtils utils a rest with
              | error e => simp only [hs] at h; exact absurd h (by simp)
              | ok s2 =>
                  simp only [hs] at h
                  injection h with h
                  obtain ⟨ih1, ih2⟩ := ih s2 hs
                  have hd := utilsGet_ok utils a d hg
                  have hqq := dictGet_ok d o q hq
                  constructor
                  · rw [← h, ih1]
                    simp [bundleVal, hd, hqq]
                  · intro x hx
                    rcases List.mem_cons.mp hx with rfl | hx2
                    · unfold pricedBy
                      rw [hd]
                      simp [hqq]
                    · exact ih2 x hx2

theorem sumUtils_err (utils : Utils) (a : ℤ) :
    ∀ (b : List ℤ) (e : PyErr), sumUtils utils a b = .error e →
      e = .pyExn "KeyError" := by
  intro b
  induction b with
  | nil => intro e h; exact absurd h (by simp [sumUtils])
  | cons o rest ih =>
      intro e h
      simp only [sumUtils] at h
      cases hg : utilsGet utils a with
      | error e1 =>
          simp only [hg] at h; injection h with h; rw [← h]
          exact utilsGet_err utils a e1 hg
      | ok d =>
          simp only [hg] at h
          cases hq : dictGet d o with
          | error e1 =>
              simp only [hq] at h; injection h with h; rw [← h]
              exact dictGet_err d o e1 hq
          | ok q =>
              simp only [hq] at h
              cases hs : sumUtils utils a rest with
              | error e1 =>
                  simp only [hs] at h; injection h with h; rw [← h]
                  exact ih e1 hs
              | ok s2 => simp only [hs] at h; exact absurd h (by simp)

theorem roundValues_ok (utils : Utils) :
    ∀ (rounds : List Round) (vs : List RoundVal),
      roundValues rounds utils = .ok vs →
      vs = rounds.map (roundSummary utils) ∧
      ∀ rd ∈ rounds, ∀ o, (o ∈ rd.1 ∨ o ∈ rd.2) →
        pricedBy utils 0 o = true ∧ pricedBy utils 1 o = true := by
  intro rounds
  induction rounds with
  | nil =>
      intro vs h
      simp only [roundValues] at h
      injection h with h
      exact ⟨by rw [← h]; simp, by simp⟩
  | cons rd rest ih =>
      intro vs h
      simp only [roundValues] at h
      cases h1 : sumUtils utils 0 rd.1 with
      | error e => simp only [h1] at h; exact absurd h (by simp)
      | ok s1 =>
          simp only [h1] at h
          cases h2 : sumUtils utils 0 rd.2 with
          | error e => simp only [h2] at h; exact absurd h (by simp)
          | ok s2 =>
              simp only [h2] at h
              cases h3 : sumUtils utils 1 rd.2 with
              | error e => simp only [h3] at h; exact absurd h (by simp)
              | ok s3 =>
                  simp only [h3] at h
                  cases h4 : sumUtils utils 1 rd.1 with
                  | error e => simp only [h4] at h; exact absurd h (by simp)
                  | ok s4 =>
                      simp only [h4] at h
                      cases hrec : roundValues rest utils with
                      | error e => simp only [hrec] at h; exact absurd h (by simp)
                      | ok vs2 =>
                          simp only [hrec] at h
                          injection h with h
                          obtain ⟨hm, hp⟩ := ih vs2 hrec
                          obtain ⟨e1, p1⟩ := sumUtils_ok_val utils 0 rd.1 s1 h1
                          obtain ⟨e2, _⟩ := sumUtils_ok_val utils 0 rd.2 s2 h2
                          obtain ⟨e3, p3⟩ := sumUtils_ok_val utils 1 rd.2 s3 h3
                          obtain ⟨e4, _⟩ := sumUtils_ok_val utils 1 rd.1 s4 h4
                          obtain ⟨_, p2b⟩ := sumUtils_ok_val utils 1 rd.1 s4 h4
                          obtain ⟨_, p2a⟩ := sumUtils_ok_val utils 0 rd.2 s2 h2
                          constructor
                          · rw [← h, hm, e1, e2, e3, e4]
                            simp [roundSummary]
                          · intro rd2 hrd2 o ho
                            rcases List.mem_cons.mp hrd2 with rfl | hrd3
                            · rcases ho with ho | ho
                              · exact ⟨p1 o ho, p2b o ho⟩
                              · exact ⟨p2a o ho, p3 o ho⟩
                            · exact hp rd2 hrd3 o ho

theorem roundValues_err (utils : Utils) :
    ∀ (rounds : List Round) (e : PyErr),
      roundValues rounds utils = .error e → e = .pyExn "KeyError" := by
  intro rounds
  induction rounds with
  | nil => intro e h; exact absurd h (by simp [roundValues])
  | cons rd rest ih =>
      intro e h
      simp only [roundValues] at h
      cases h1 : sumUtils utils 0 rd.1 with
      | error e1 =>
          simp only [h1] at h; injection h with h; rw [← h]
          exact sumUtils_err utils 0 rd.1 e1 h1
      | ok s1 =>
          simp only [h1] at h
          cases h2 : sumUtils utils 0 rd.2 with
          | error e1 =>
              simp only [h2] at h; injection h with h; rw [← h]
              exact sumUtils_err utils 0 rd.2 e1 h2
          | ok s2 =>
              simp only [h2] at h
              cases h3 : sumUtils utils 1 rd.2 with
              | error e1 =>
                  simp only [h3] at h; injection h with h; rw [← h]
                  exact sumUtils_err utils 1 rd.2 e1 h3
              | ok s3 =>
                  simp only [h3] at h
                  cases h4 : sumUtils utils 1 rd.1 with
                  | error e1 =>
                      simp only [h4] at h; injection h with h; rw [← h]
                      exact sumUtils_err utils 1 rd.1 e1 h4
                  | ok s4 =>
                      simp only [h4] at h
                      cases hrec : roundValues rest utils with
                      | error e1 =>
                          simp only [hrec] at h; injection h with h; rw [← h]
                          exact ih e1 hrec
                      | ok vs2 => simp only [hrec] at h; exact absurd h (by simp)

theorem bundleVal_append (utils : Utils) (a : ℤ) (xs ys : List ℤ) :
    bundleVal utils a (xs ++ ys) = bundleVal utils a xs + bundleVal utils a ys := by
  simp [bundleVal]

theorem bundleVal_perm (utils : Utils) (a : ℤ) {xs ys : List ℤ}
    (h : xs.Perm ys) : bundleVal utils a xs = bundleVal utils a ys :=
  List.Perm.sum_eq (h.map _)

/-! ## Claim theorems -/

/-- **C4** (confirmed).  For every wrapped callable outcome and every prior
root-logger state, `_run_with_log_capture` leaves the severity threshold at
its pre-call value and the attached sinks exactly as they were (its
temporary sink is removed) on every exit path, and the callable's outcome —
normal result or exception — passes through unchanged after this cleanup. -/
theorem c4_log_capture_restores_state {α : Type} (f : Except PyErr α) (s : LogState) :
    (runWithLogCapture f s).2.level = s.level ∧
    (runWithLogCapture f s).2.handlers = s.handlers ∧
    (runWithLogCapture f s).1 = f := by
  refine ⟨rfl, ?_, rfl⟩
  simp only [runWithLogCapture]
  exact removeHandler_append_not_mem _ _ (freshHandler_not_mem s)

/-- **C1** (code bug).  The claim demands that the fallback decoder be
sandboxed; the code instead runs `eval(raw, {})`, and an empty globals dict
still receives `__builtins__`, so `c1Payload` imports the `os` module and
performs an ambient-namespace call.  This theorem evaluates the code at the
failing input: the strict decoder rejects it, so `_coerce_utils` does reach
the `eval` fallback on it, and it lies outside the literal-only dialect
that the spec's sandboxed reimplementation would accept. -/
theorem c1_fallback_reached_on_code_payload :
    jsonLoads c1Payload = Option.none ∧ pyEvalLiteral c1Payload = Option.none :=
  ⟨rfl, rfl⟩

/-- **C8** counterexample.  A valid payload with selector `"1"` and `k = 3`
is rejected with message `"Algorithm 1 works only for k = 2."` — which is
not the message `"Algorithm 1 works only for k = 2"` the claim states (the
code's message ends in a period). -/
theorem c8_message_mismatch_cex :
    home okCollab demoRaw 3 "1" =
      .error (.abort 400 "Algorithm 1 works only for k = 2.") ∧
    "Algorithm 1 works only for k = 2." ≠ "Algorithm 1 works only for k = 2" := by
  constructor
  · with_unfolding_all decide
  · decide

/-- **C8** as amended.  For every request whose payload parses, selecting
the two-round variant (selector `"1"`) with `k ≠ 2`, the request is
rejected with the client-input error `abort(400, "Algorithm 1 works only
for k = 2.")` (trailing period), and the allocation algorithm is not
invoked: the outcome is the same under every collaborator. -/
theorem c8_two_round_requires_k2 (C C' : Collab) (raw : String) (k : ℤ)
    (u : Utils) (h : coerceUtils raw = .ok u) (hk : k ≠ 2) :
    home C raw k "1" = .error (.abort 400 "Algorithm 1 works only for k = 2.") ∧
    home C raw k "1" = home C' raw k "1" := by
  refine ⟨home_two_round_badk C raw k u h hk, ?_⟩
  rw [home_two_round_badk C raw k u h hk, home_two_round_badk C' raw k u h hk]

/-- Witness for `c8_two_round_requires_k2` at `demoRaw`, `k = 3`. -/
theorem c8_two_round_requires_k2_witness :
    coerceUtils demoRaw = .ok demoUtils ∧ ((3 : ℤ) ≠ 2) ∧
    (home probeCollab demoRaw 3 "1" =
        .error (.abort 400 "Algorithm 1 works only for k = 2.") ∧
      home probeCollab demoRaw 3 "1" = home okCollab demoRaw 3 "1") :=
  have h : coerceUtils demoRaw = .ok demoUtils := by with_unfolding_all decide
  ⟨h, by decide,
    c8_two_round_requires_k2 probeCollab okCollab demoRaw 3 demoUtils h (by decide)⟩

/-- **C7** counterexample.  `k = 0` is even but below 2, so it violates the
claimed precondition `k even and ≥ 2`; yet with selector `"2"` the request
is not rejected (a collaborator returning an empty allocation renders
normally), and the allocation algorithm *is* invoked (a collaborator whose
`algorithm2` raises has its exception surface as the request outcome). -/
theorem c7_even_k_below_two_accepted_cex :
    home okCollab demoRaw 0 "2" = .ok ⟨"algo2.html", demoUtils, [], [], [], 0⟩ ∧
    home probeCollab demoRaw 0 "2" = .error (.pyExn "algorithm2 invoked") := by
  constructor <;> with_unfolding_all decide

/-- **C7** as amended.  For general-even requests (selector ≠ `"1"`) whose
payload parses, only parity is validated: odd `k` is rejected with the
client-input error `abort(400, "Algorithm 2 requires an *even* k.")` before
the algorithm is invoked (the outcome is collaborator-independent), while
every even `k` — including `k = 0` and negative even `k` — passes
validation and the algorithm is invoked with that `k` (its exception, if
any, becomes the request outcome). -/
theorem c7_general_parity_only (C : Collab) (raw : String) (k : ℤ)
    (sel : String) (u : Utils) (h : coerceUtils raw = .ok u)
    (hsel : sel ≠ "1") :
    (k % 2 ≠ 0 →
      home C raw k sel = .error (.abort 400 "Algorithm 2 requires an *even* k.") ∧
      ∀ C' : Collab, home C raw k sel = home C' raw k sel) ∧
    (k % 2 = 0 → ∀ e, C.algorithm2 k u = .error e → home C raw k sel = .error e) := by
  constructor
  · intro hk
    refine ⟨home_general_oddk C raw k sel u h hsel hk, fun C' => ?_⟩
    rw [home_general_oddk C raw k sel u h hsel hk,
      home_general_oddk C' raw k sel u h hsel hk]
  · intro hk e ha
    exact home_general_algo_err C raw k sel u e h hsel hk ha

/-- Witness for `c7_general_parity_only` at `demoRaw` with `k = 3` (odd,
rejected) and `k = 0` (even, algorithm invoked). -/
theorem c7_general_parity_only_witness :
    coerceUtils demoRaw = .ok demoUtils ∧ ("2" ≠ "1") ∧
    home probeCollab demoRaw 3 "2" =
      .error (.abort 400 "Algorithm 2 requires an *even* k.") ∧
    home probeCollab demoRaw 0 "2" = .error (.pyExn "algorithm2 invoked") :=
  have h : coerceUtils demoRaw = .ok demoUtils := by with_unfolding_all decide
  ⟨h, by decide,
    ((c7_general_parity_only probeCollab demoRaw 3 "2" demoUtils h
        (by decide)).1 (by decide)).1,
    (c7_general_parity_only probeCollab demoRaw 0 "2" demoUtils h
        (by decide)).2 (by decide) (.pyExn "algorithm2 invoked") rfl⟩

/-- **C2** (confirmed).  For every payload that decodes and coerces
successfully but whose resulting agent-identifier set is not exactly
`{0, 1}`, `_coerce_utils` raises the agent-set rejection — a client-input
error (`abort 400`) with a descriptive message — and the allocation
algorithm is never invoked: the request fails with that very error, under
every collaborator alike. -/
theorem c2_invalid_agent_set (raw : String) (data : PyValue)
    (es : List (PyValue × PyValue)) (out : Utils)
    (hd : decodePayload raw = some data) (hi : pyItems data = .ok es)
    (hc : coerceLoop [] es = .ok out) (hbad : agentSetOk out = false) :
    coerceUtils raw = .error (.abort 400 invalidAgentSetMsg) ∧
    PyErr.isClientInput (.abort 400 invalidAgentSetMsg) = true ∧
    ∀ (C C' : Collab) (k : ℤ) (sel : String),
      home C raw k sel = .error (.abort 400 invalidAgentSetMsg) ∧
      home C raw k sel = home C' raw k sel := by
  have hcu : coerceUtils raw = .error (.abort 400 invalidAgentSetMsg) := by
    rw [coerceUtils_decode raw data hd]
    simp [coerceData, hi, hc, hbad]
  refine ⟨hcu, rfl, fun C C' k sel => ?_⟩
  rw [home_coerce_err C raw k sel _ hcu, home_coerce_err C' raw k sel _ hcu]
  exact ⟨rfl, rfl⟩

/-- Witness for `c2_invalid_agent_set`: the spec's scenario-B payload
`c2Raw` (agent 1 missing). -/
theorem c2_invalid_agent_set_witness :
    decodePayload c2Raw = some c2Data ∧ pyItems c2Data = .ok c2Entries ∧
    agentSetOk [(0, [(0, 5)])] = false ∧
    (coerceUtils c2Raw = .error (.abort 400 invalidAgentSetMsg) ∧
      home okCollab c2Raw 2 "1" = .error (.abort 400 invalidAgentSetMsg)) :=
  have hd : decodePayload c2Raw = some c2Data := rfl
  have hi : pyItems c2Data = .ok c2Entries := rfl
  have hc : coerceLoop [] c2Entries = .ok [(0, [(0, 5)])] := rfl
  have hb : agentSetOk [(0, [(0, 5)])] = false := by decide
  have main := c2_invalid_agent_set c2Raw c2Data c2Entries [(0, [(0, 5)])] hd hi hc hb
  ⟨hd, hi, hb, main.1, (main.2.2 okCollab okCollab 2 "1").1⟩

/-- **C3** counterexample.  The payload `"["` is unparsable by both the
strict and the fallback decoder, so the claim asserts it fails with a
client-input-class error; in the code the fallback's `SyntaxError` is not
caught (only `json.JSONDecodeError` is), so the failure is an uncaught
exception — not the client-input rejection class (`abort 400`). -/
theorem c3_not_client_input_cex :
    jsonLoads "[" = Option.none ∧ pyEvalLiteral "[" = Option.none ∧
    coerceUtils "[" = .error (.pyExn "SyntaxError") ∧
    PyErr.isClientInput (.pyExn "SyntaxError") = false :=
  ⟨rfl, rfl, rfl, rfl⟩

/-- **C3** as amended.  For every malformed payload, parsing fails with an
uncaught exception that rejects the request immediately with no partial
processing — but it surfaces as an internal error, not as a client-input
error: (1) a payload both decoders reject fails with the fallback's
uncaught exception; (2) a decoded payload containing a non-numeric agent
label, item label or value fails with the coercion's uncaught
`ValueError`/`TypeError`, never with the client-input rejection class. -/
theorem c3_malformed_uncaught_exn :
    (∀ raw : String, jsonLoads raw = Option.none → pyEvalLiteral raw = Option.none →
      coerceUtils raw = .error (.pyExn "SyntaxError") ∧
      PyErr.isClientInput (.pyExn "SyntaxError") = false ∧
      ∀ (C : Collab) (k : ℤ) (sel : String),
        home C raw k sel = .error (.pyExn "SyntaxError")) ∧
    (∀ (raw : String) (data : PyValue) (es : List (PyValue × PyValue)) (e : PyErr),
      decodePayload raw = some data → pyItems data = .ok es →
      coerceLoop [] es = .error e →
      coerceUtils raw = .error e ∧ e.isClientInput = false ∧
      ∀ (C : Collab) (k : ℤ) (sel : String), home C raw k sel = .error e) := by
  constructor
  · intro raw hj hp
    have hcu : coerceUtils raw = .error (.pyExn "SyntaxError") := by
      unfold coerceUtils
      rw [hj, hp]
    exact ⟨hcu, rfl, fun C k sel => home_coerce_err C raw k sel _ hcu⟩
  · intro raw data es e hd hi hc
    have hcu : coerceUtils raw = .error e := by
      rw [coerceUtils_decode raw data hd]
      simp [coerceData, hi, hc]
    exact ⟨hcu, coerceLoop_err es [] e hc,
      fun C k sel => home_coerce_err C raw k sel _ hcu⟩

/-- Witness for `c3_malformed_uncaught_exn`: part (1) at the payload `"["`,
part (2) at `c3Raw`, whose agent-0 valuation is the non-numeric `"abc"`. -/
theorem c3_malformed_uncaught_exn_witness :
    (jsonLoads "[" = Option.none ∧ pyEvalLiteral "[" = Option.none ∧
      coerceUtils "[" = .error (.pyExn "SyntaxError")) ∧
    (decodePayload c3Raw = some c3Data ∧
      coerceLoop [] c3Entries = .error (.pyExn "ValueError") ∧
      coerceUtils c3Raw = .error (.pyExn "ValueError") ∧
      PyErr.isClientInput (.pyExn "ValueError") = false) :=
  have hj : jsonLoads "[" = Option.none := rfl
  have hp : pyEvalLiteral "[" = Option.none := rfl
  have hd : decodePayload c3Raw = some c3Data := rfl
  have hi : pyItems c3Data = .ok c3Entries := rfl
  have hc : coerceLoop [] c3Entries = .error (.pyExn "ValueError") := rfl
  have part1 := c3_malformed_uncaught_exn.1 "[" hj hp
  have part2 := c3_malformed_uncaught_exn.2 c3Raw c3Data c3Entries
    (.pyExn "ValueError") hd hi hc
  ⟨⟨hj, hp, part1.1⟩, ⟨hd, hc, part2.1, part2.2.1⟩⟩

/-- **C10** counterexample.  The payload `c10Raw` decodes to two *distinct*
textual agent labels `"0"` and `"00"` that coerce to the same canonical id
0 — yet `parse` *does* fail on it: the silent overwrite collapses the agent
set to `{0}`, which the agent-set validation then rejects.  So "parse does
not fail" is false as a universal statement. -/
theorem c10_duplicate_agent_labels_cex :
    pyInt (.str "0") = .ok 0 ∧ pyInt (.str "00") = .ok 0 ∧ ("0" ≠ "00") ∧
    decodePayload c10Raw = some c10Data ∧
    coerceUtils c10Raw = .error (.abort 400 invalidAgentSetMsg) := by
  refine ⟨by decide, by decide, by decide, rfl, ?_⟩
  with_unfolding_all decide

/-- **C10** as amended.  Colliding canonical identifiers never themselves
raise: whenever the coercion loop succeeds, the entry processed last among
those coercing to a given id determines that id's binding — the earlier
binding is silently overwritten — both at the agent level and at the item
level within one agent; `parse` as a whole, however, can still reject the
collapsed table afterwards when duplicate agent labels leave the agent set
different from `{0, 1}` (see the counterexample). -/
theorem c10_last_binding_wins :
    (∀ (acc : Utils) (es : List (PyValue × PyValue)) (albl its : PyValue)
        (a : ℤ) (d : List (ℤ × ℚ)) (out : Utils),
      coerceLoop acc (es ++ [(albl, its)]) = .ok out →
      pyInt albl = .ok a → coerceInner its = .ok d →
      dlookup out a = some d) ∧
    (∀ (acc : List (ℤ × ℚ)) (ps : List (PyValue × PyValue)) (it v : PyValue)
        (i : ℤ) (q : ℚ) (dout : List (ℤ × ℚ)),
      coerceInnerLoop acc (ps ++ [(it, v)]) = .ok dout →
      pyInt it = .ok i → pyFloat v = .ok q →
      dlookup dout i = some q) := by
  constructor
  · intro acc es albl its a d out h ha hd
    rw [coerceLoop_append es [(albl, its)] acc] at h
    cases hmid : coerceLoop acc es with
    | error e => rw [hmid] at h; exact absurd h (by simp)
    | ok mid =>
        rw [hmid] at h
        simp only [coerceLoop, ha, hd] at h
        injection h with h
        rw [← h]
        exact dlookup_dinsert_self mid a d
  · intro acc ps it v i q dout h hi hq
    rw [coerceInnerLoop_append ps [(it, v)] acc] at h
    cases hmid : coerceInnerLoop acc ps with
    | error e => rw [hmid] at h; exact absurd h (by simp)
    | ok mid =>
        rw [hmid] at h
        simp only [coerceInnerLoop, hi, hq] at h
        injection h with h
        rw [← h]
        exact dlookup_dinsert_self mid i q

/-- Witness for `c10_last_binding_wins`: the two entries of `c10Raw` at the
agent level, and a duplicated item label at the item level. -/
theorem c10_last_binding_wins_witness :
    (coerceLoop [] c10Entries = .ok [(0, [(0, 2)])] ∧
      pyInt (.str "00") = .ok 0 ∧
      dlookup [(0, ([(0, 2)] : List (ℤ × ℚ)))] 0 = some [(0, 2)]) ∧
    (coerceInnerLoop [] [(.str "0", .int 1), (.str "0", .int 2)] = .ok [(0, 2)] ∧
      dlookup ([(0, 2)] : List (ℤ × ℚ)) 0 = some 2) :=
  have h1 : coerceLoop []
      ([(.str "0", .dict [(.str "0", .int 1)])] ++
        [(.str "00", .dict [(.str "0", .int 2)])]) = .ok [(0, [(0, 2)])] := by
    with_unfolding_all rfl
  have h2 : coerceInnerLoop []
      ([(.str "0", .int 1)] ++ [(.str "0", .int 2)]) = .ok [(0, 2)] := by
    with_unfolding_all rfl
  ⟨⟨h1, rfl,
      c10_last_binding_wins.1 [] [(.str "0", .dict [(.str "0", .int 1)])]
        (.str "00") (.dict [(.str "0", .int 2)]) 0 [(0, 2)] [(0, [(0, 2)])]
        h1 rfl rfl⟩,
    ⟨h2,
      c10_last_binding_wins.2 [] [(.str "0", .int 1)] (.str "0") (.int 2)
        0 2 [(0, 2)] h2 rfl rfl⟩⟩

/-- **C5** (confirmed).  For every allocation sequence and valuation table
in which both agents price every allocated item, `_round_values` succeeds
and produces exactly one `RoundVal` per round, in round order, and for
round `r` the entry is `roundSummary`: agent 0's own-value is the sum of
`utils[0]` over `rd[0]` and its other-value the sum of `utils[0]` over
`rd[1]`; agent 1's own-value is the sum of `utils[1]` over `rd[1]` and its
other-value the sum of `utils[1]` over `rd[0]`. -/
theorem c5_round_values_correct (rounds : List Round) (utils : Utils)
    (h : rounds.all (fun rd => (rd.1 ++ rd.2).all
        (fun o => pricedBy utils 0 o && pricedBy utils 1 o)) = true) :
    roundValues rounds utils = .ok (rounds.map (roundSummary utils)) := by
  induction rounds with
  | nil => simp [roundValues]
  | cons rd rest ih =>
      rw [List.all_cons, Bool.and_eq_true] at h
      obtain ⟨h1, h2⟩ := h
      have hp : ∀ o ∈ rd.1 ++ rd.2,
          pricedBy utils 0 o = true ∧ pricedBy utils 1 o = true := by
        intro o ho
        have := List.all_eq_true.mp h1 o ho
        rw [Bool.and_eq_true] at this
        exact this
      have hp0l : ∀ o ∈ rd.1, pricedBy utils 0 o = true :=
        fun o ho => (hp o (List.mem_append_left _ ho)).1
      have hp0r : ∀ o ∈ rd.2, pricedBy utils 0 o = true :=
        fun o ho => (hp o (List.mem_append_right _ ho)).1
      have hp1l : ∀ o ∈ rd.1, pricedBy utils 1 o = true :=
        fun o ho => (hp o (List.mem_append_left _ ho)).2
      have hp1r : ∀ o ∈ rd.2, pricedBy utils 1 o = true :=
        fun o ho => (hp o (List.mem_append_right _ ho)).2
      simp only [roundValues,
        sumUtils_ok_of_priced utils 0 rd.1 hp0l,
        sumUtils_ok_of_priced utils 0 rd.2 hp0r,
        sumUtils_ok_of_priced utils 1 rd.2 hp1r,
        sumUtils_ok_of_priced utils 1 rd.1 hp1l,
        ih h2]
      simp [roundSummary]

/-- Witness for `c5_round_values_correct`: the scenario-A table with the
single round `([0], [1])`. -/
theorem c5_round_values_correct_witness :
    ([(([0], [1]) : Round)].all (fun rd => (rd.1 ++ rd.2).all
        (fun o => pricedBy demoUtils 0 o && pricedBy demoUtils 1 o)) = true) ∧
    roundValues [(([0], [1]) : Round)] demoUtils =
      .ok ([(([0], [1]) : Round)].map (roundSummary demoUtils)) :=
  ⟨by decide, c5_round_values_correct [([0], [1])] demoUtils (by decide)⟩

/-- **C6** (confirmed).  For every allocation sequence containing a bundle
that references an item some agent's valuation mapping does not price,
`_round_values` fails with the uncaught `KeyError` (the spec's
`MissingValuationError`) rather than silently defaulting that item's value
to zero. -/
theorem c6_missing_valuation_fails (rounds : List Round) (utils : Utils)
    (rd : Round) (o : ℤ) (hrd : rd ∈ rounds) (ho : o ∈ rd.1 ∨ o ∈ rd.2)
    (hmiss : pricedBy utils 0 o = false ∨ pricedBy utils 1 o = false) :
    roundValues rounds utils = .error (.pyExn "KeyError") := by
  cases hres : roundValues rounds utils with
  | ok vs =>
      have hp := (roundValues_ok utils rounds vs hres).2 rd hrd o ho
      rcases hmiss with hm | hm
      · rw [hp.1] at hm; exact absurd hm (by simp)
      · rw [hp.2] at hm; exact absurd hm (by simp)
  | error e => rw [roundValues_err utils rounds e hres]

/-- Witness for `c6_missing_valuation_fails`: item 1 is allocated to agent
1 but absent from agent 0's mapping in `c6Utils`. -/
theorem c6_missing_valuation_fails_witness :
    ((([0], [1]) : Round) ∈ [(([0], [1]) : Round)]) ∧
    ((1 : ℤ) ∈ (([0], [1]) : Round).1 ∨ (1 : ℤ) ∈ (([0], [1]) : Round).2) ∧
    pricedBy c6Utils 0 1 = false ∧
    roundValues [(([0], [1]) : Round)] c6Utils = .error (.pyExn "KeyError") :=
  ⟨by decide, Or.inr (by decide), by decide,
    c6_missing_valuation_fails [([0], [1])] c6Utils ([0], [1]) 1
      (by decide) (Or.inr (by decide)) (Or.inl (by decide))⟩

/-- **C9** (confirmed).  For every round `r` and agent `a ∈ {0, 1}`, if the
round's two bundles partition the full item universe, the summarizer's
own-value plus other-value for that agent equals the sum of that agent's
valuations over the whole universe. -/
theorem c9_partition_sum (rounds : List Round) (utils : Utils)
    (vs : List RoundVal) (r : ℕ) (b0 b1 univ : List ℤ) (a : ℤ)
    (hres : roundValues rounds utils = .ok vs)
    (hrd : rounds[r]? = some (b0, b1))
    (hperm : (b0 ++ b1).Perm univ) (ha : a = 0 ∨ a = 1) :
    ∃ v, vs[r]? = some v ∧
      RoundVal.own v a + RoundVal.other v a = bundleVal utils a univ := by
  have hvs := (roundValues_ok utils rounds vs hres).1
  subst hvs
  refine ⟨roundSummary utils (b0, b1), ?_, ?_⟩
  · rw [List.getElem?_map, hrd]
    rfl
  · have hsum : bundleVal utils a b0 + bundleVal utils a b1 =
        bundleVal utils a univ := by
      rw [← bundleVal_append utils a b0 b1]
      exact bundleVal_perm utils a hperm
    rcases ha with rfl | rfl
    · simpa [roundSummary, RoundVal.own, RoundVal.other] using hsum
    · simp only [roundSummary, RoundVal.own, RoundVal.other]
      norm_num
      rw [add_comm]
      exact hsum

/-- Witness for `c9_partition_sum`: the scenario-A table, one round
`([0], [1])` partitioning the universe `[0, 1]`, agent 0. -/
theorem c9_partition_sum_witness :
    roundValues [(([0], [1]) : Round)] demoUtils =
      .ok ([(([0], [1]) : Round)].map (roundSummary demoUtils)) ∧
    ([(([0], [1]) : Round)][0]? = some (([0], [1]) : Round)) ∧
    (([0] ++ [1] : List ℤ).Perm [0, 1]) ∧
    ∃ v, ([(([0], [1]) : Round)].map (roundSummary demoUtils))[0]? = some v ∧
      RoundVal.own v 0 + RoundVal.other v 0 = bundleVal demoUtils 0 [0, 1] :=
  have hres : roundValues [(([0], [1]) : Round)] demoUtils =
      .ok ([(([0], [1]) : Round)].map (roundSummary demoUtils)) := by
    with_unfolding_all decide
  have hrd : [(([0], [1]) : Round)][0]? = some (([0], [1]) : Round) := rfl
  have hperm : (([0] ++ [1] : List ℤ)).Perm [0, 1] := List.Perm.refl _
  ⟨hres, hrd, hperm,
    c9_partition_sum [([0], [1])] demoUtils _ 0 [0] [1] [0, 1] 0
      hres hrd hperm (Or.inl rfl)⟩

end RFA
